import Mathlib

/-!
# Verification of the Venice AI SDK core components

A shallow embedding of the SDK's transport response processing, rate
limiter, retry policy, paginator, streaming decoder and URL builder,
with theorems settling the specification claims about them.

Machine integers are modelled as `Nat`/`Int`; where the Rust code casts
(`as i64`, wrapping `u64` addition) the wrap is made explicit with `% 2^w`.
Wall-clock time (`SystemTime::now`) is passed in as an explicit `now`
parameter.  Async suspension (`sleep`) is modelled by returning the slept
duration.
-/

namespace Venice

/-! ## String primitives

Rust `str` operations are modelled directly by structural recursion on
the character list of a `String` (so that concrete runs reduce inside
the kernel; the core library's string functions use well-founded
recursion and do not). -/

/-- Rust `str::starts_with` (and the backbone of the other string
operations): does `pat` prefix `s`? -/
def charsStartsWith : List Char → List Char → Bool
  | _, [] => true
  | [], _ :: _ => false
  | c :: cs, p :: ps => c == p && charsStartsWith cs ps

/-- Rust `str::starts_with`. -/
def str_startsWith (s pat : String) : Bool :=
  charsStartsWith s.data pat.data

/-- Rust `str::ends_with`. -/
def str_endsWith (s pat : String) : Bool :=
  charsStartsWith s.data.reverse pat.data.reverse

/-- Split on a single separator character, keeping empty segments (the
semantics of Rust's `split` and of `String::splitOn` for a one-character
separator). -/
def charsSplitOnChar (sep : Char) : List Char → List (List Char)
  | [] => [[]]
  | c :: cs =>
    let rest := charsSplitOnChar sep cs
    if c == sep then [] :: rest
    else
      match rest with
      | r :: rs => (c :: r) :: rs
      | [] => [[c]]

/-- Split a string on a separator character. -/
def str_splitOnChar (sep : Char) (s : String) : List String :=
  (charsSplitOnChar sep s.data).map (fun l => ⟨l⟩)

/-- All characters are ASCII digits. -/
def charsAllDigits : List Char → Bool
  | [] => true
  | c :: cs => (48 ≤ c.toNat && c.toNat ≤ 57) && charsAllDigits cs

/-- Decimal value of a digit list (most significant first). -/
def charsDigitsVal : List Char → Nat → Nat
  | [], acc => acc
  | c :: cs, acc => charsDigitsVal cs (acc * 10 + (c.toNat - 48))

/-- Rust `str::parse::<uN>` before the width check (and core
`String.toNat?`): all-digits, nonempty. -/
def str_toNat? (s : String) : Option Nat :=
  if charsAllDigits s.data && !s.data.isEmpty then
    some (charsDigitsVal s.data 0)
  else
    none

/-- Drop the first `n` characters. -/
def str_drop (s : String) (n : Nat) : String :=
  ⟨s.data.drop n⟩

/-- Drop the last character. -/
def str_dropLastChar (s : String) : String :=
  ⟨s.data.dropLast⟩

/-- Character length. -/
def str_length (s : String) : Nat :=
  s.data.length

/-- Embedding of `VeniceError` (src/error.rs). `HttpError` wraps a
`reqwest::Error`; we keep only its rendered message. `ApiError`'s
`reqwest::StatusCode` is modelled as the underlying `u16` code. -/
inductive VeniceError where
  | apiError (status : Nat) (code : String) (message : String)
  | httpError (message : String)
  | parseError (message : String)
  | invalidInput (message : String)
  | rateLimitExceeded (message : String)
  | authenticationFailed (message : String)
  | invalidWebhookSignature (message : String)
  | unknown (message : String)
  deriving DecidableEq, Repr

/-- Embedding of `RateLimitInfo` (src/error.rs).  The `u32`/`u64` fields
are `Nat`s kept in range by the header parser; the `f64` balance fields
are modelled as rationals. -/
structure RateLimitInfo where
  limit_requests : Option Nat
  remaining_requests : Option Nat
  reset_requests : Option Nat
  limit_tokens : Option Nat
  remaining_tokens : Option Nat
  reset_tokens : Option Nat
  balance_vcu : Option ℚ
  balance_usd : Option ℚ
  deriving DecidableEq, Repr

/-- A header map, as the list of (name, value) pairs.  `reqwest` stores
header names lowercased and `HeaderMap::get` with a lowercase name matches
case-insensitively; we model the names already normalized to lowercase. -/
abbrev Headers := List (String × String)

deriving instance DecidableEq for Except

/-- `parse_header::<u32>` / `::<u64>` in `RateLimitInfo::from_headers`:
look the name up and parse the value as a nonnegative integer, failing
(`None`) when the value does not parse or exceeds the integer width
(`bound` = 2^32 or 2^64). -/
def parse_header (headers : Headers) (name : String) (bound : Nat) : Option Nat :=
  match headers.find? (fun p => p.1 = name) with
  | some p =>
    match str_toNat? p.2 with
    | some n => if n < bound then some n else none
    | none => none
  | none => none

/-- `parse_header::<f64>` for the balance headers, restricted to plain
decimal literals (sign, digits, optional fraction); no claim touches the
balance fields. -/
def parse_header_decimal (headers : Headers) (name : String) : Option ℚ :=
  match headers.find? (fun p => p.1 = name) with
  | some p =>
    let s := p.2
    let neg := str_startsWith s "-"
    let rest := if neg then str_drop s 1 else s
    let val? : Option ℚ :=
      match str_splitOnChar '.' rest with
      | [i] => (str_toNat? i).map (fun n => (n : ℚ))
      | [i, f] =>
        match str_toNat? i, str_toNat? f with
        | some ni, some nf => some ((ni : ℚ) + (nf : ℚ) / (10 : ℚ) ^ str_length f)
        | _, _ => none
      | _ => none
    val?.map (fun v => if neg then -v else v)
  | none => none

/-- `RateLimitInfo::from_headers` (src/error.rs): each field from its
`x-ratelimit-*` / `x-venice-balance-*` header, unparseable or absent
headers leaving the field `None`. -/
def RateLimitInfo.from_headers (headers : Headers) : RateLimitInfo :=
  { limit_requests := parse_header headers "x-ratelimit-limit-requests" (2 ^ 32)
    remaining_requests := parse_header headers "x-ratelimit-remaining-requests" (2 ^ 32)
    reset_requests := parse_header headers "x-ratelimit-reset-requests" (2 ^ 64)
    limit_tokens := parse_header headers "x-ratelimit-limit-tokens" (2 ^ 32)
    remaining_tokens := parse_header headers "x-ratelimit-remaining-tokens" (2 ^ 32)
    reset_tokens := parse_header headers "x-ratelimit-reset-tokens" (2 ^ 64)
    balance_vcu := parse_header_decimal headers "x-venice-balance-vcu"
    balance_usd := parse_header_decimal headers "x-venice-balance-usd" }

/-- The `Display` instance of `RateLimitInfo` (src/error.rs), used in the
429 error message: absent fields print as 0. -/
def RateLimitInfo.display (i : RateLimitInfo) : String :=
  "Rate Limit Info: " ++ toString (i.remaining_requests.getD 0) ++ "/" ++
    toString (i.limit_requests.getD 0) ++ " requests, " ++
    toString (i.remaining_tokens.getD 0) ++ "/" ++
    toString (i.limit_tokens.getD 0) ++ " tokens"

/-- `RateLimitInfo::is_rate_limited` (src/error.rs). -/
def RateLimitInfo.is_rate_limited (i : RateLimitInfo) : Bool :=
  (i.remaining_requests.map (fun r => decide (r = 0))).getD false ||
  (i.remaining_tokens.map (fun t => decide (t = 0))).getD false

/-! ## URL builder (src/http/url.rs) -/

/-- The string-joining part of `build_url` (src/http/url.rs): a slash is
inserted only when the base does not end with `/` and the endpoint does
not start with `/`.  The final `Url::parse` is outside the model; all
claims concern the joined string. -/
def build_url (base_url endpoint : String) : String :=
  if !str_endsWith base_url "/" && !str_startsWith endpoint "/" then
    base_url ++ "/" ++ endpoint
  else
    base_url ++ endpoint

/-! ## Transport response processing (src/http/response_processor.rs) -/

/-- The shape of a non-2xx response body after `serde_json` parsing, as
distinguished by the error-extraction branches of `process_response`.
JSON parsing itself is abstracted; each constructor records what the
branch needs (`rendered` is the `Display` rendering of a JSON value). -/
inductive ErrorBody where
  /-- Body parsed and has an `error` field that is an object (its
  optional `code` / `message` string members recorded). -/
  | errObject (code : Option String) (message : Option String)
  /-- Body parsed and its `error` field is a string. -/
  | errString (s : String)
  /-- Body parsed, `error` field present but neither object nor string. -/
  | errOther (rendered : String)
  /-- Body parsed to JSON without an `error` field. -/
  | noErrorField
  /-- Body is not valid JSON: the code substitutes
  `{"error": {"message": <raw text>}}`. -/
  | notJson
  deriving DecidableEq, Repr

/-- An HTTP response as consumed by `process_response`, with the two
deserialization outcomes precomputed: `body` is the result of
deserializing the body into the target type `T` (`Except` carries the
serde error message), and `error_body` classifies the raw body text for
the error-extraction branches. -/
structure HttpResponse (T : Type) where
  status : Nat
  headers : Headers
  body : Except String T
  body_text : String
  error_body : ErrorBody

/-- `StatusCode::is_success`: 2xx. -/
def is_success (status : Nat) : Bool := 200 ≤ status && status < 300

/-- The `(code, message)` extraction of `process_response`'s non-2xx
branch (src/http/response_processor.rs lines 22-54). -/
def extract_error (body_text : String) (b : ErrorBody) : String × String :=
  match b with
  | .errObject code message => (code.getD "unknown", message.getD "Unknown error")
  | .errString s => ("api_error", s)
  | .errOther rendered => ("unknown", "Unexpected error format: " ++ rendered)
  | .noErrorField => ("unknown", "Unexpected error response: " ++ body_text)
  | .notJson =>
    -- the substituted value is {"error": {"message": body_text}}:
    -- an error object with no code and the raw text as message
    ("unknown", body_text)

/-- `process_response` (src/http/response_processor.rs): parse the
rate-limit headers, then classify 429 / other non-2xx / body-parse
failure, returning the payload together with the snapshot only on the
success path. -/
def process_response {T : Type} (r : HttpResponse T) :
    Except VeniceError (T × RateLimitInfo) :=
  let rate_limit_info := RateLimitInfo.from_headers r.headers
  if r.status = 429 then
    .error (.rateLimitExceeded ("Rate limit exceeded: " ++ rate_limit_info.display))
  else if !is_success r.status then
    let cm := extract_error r.body_text r.error_body
    .error (.apiError r.status cm.1 cm.2)
  else
    match r.body with
    | .ok data => .ok (data, rate_limit_info)
    | .error err => .error (.parseError ("Failed to parse response: " ++ err))

/-! ## Rate limiter (src/rate_limit.rs) -/

/-- `RateLimiterConfig` (src/rate_limit.rs). -/
structure RateLimiterConfig where
  auto_wait : Bool
  max_wait_time : Nat
  deriving DecidableEq, Repr

/-- The counters of `RateLimiter` (src/rate_limit.rs): `AtomicU32`
counters as `Nat`, `AtomicI64` reset timestamps as `Int`.  The atomics
are only ever loaded/stored whole, so sequential state passing is a
faithful model of any single interleaving. -/
structure RateLimiterState where
  max_requests : Nat
  remaining_requests : Nat
  reset_time_requests : Int
  max_tokens : Nat
  remaining_tokens : Nat
  reset_time_tokens : Int
  deriving DecidableEq, Repr

/-- `RateLimiter::with_config`'s initial counters: remaining counters
seeded to 1 so the first call is never blocked. -/
def RateLimiterState.initial : RateLimiterState :=
  { max_requests := 0, remaining_requests := 1, reset_time_requests := 0
    max_tokens := 0, remaining_tokens := 1, reset_time_tokens := 0 }

/-- Rust `u64 as i64`: reinterpret the low 64 bits as a signed value. -/
def i64ofU64 (n : Nat) : Int :=
  if n % 2 ^ 64 < 2 ^ 63 then ((n % 2 ^ 64 : Nat) : Int)
  else ((n % 2 ^ 64 : Nat) : Int) - 2 ^ 64

/-- `RateLimiter::update_from_response` (src/rate_limit.rs): each present
snapshot field overwrites the corresponding counter; absent fields leave
it untouched.  `reset_requests` is stored as-is (`as i64`), while
`reset_tokens` is seconds-until-reset and stored as `now + reset`
(wrapping `u64` addition, then `as i64`); `now` is the wall clock in
seconds since the epoch. -/
def update_from_response (s : RateLimiterState) (info : RateLimitInfo) (now : Nat) :
    RateLimiterState :=
  let s := match info.limit_requests with
    | some limit => { s with max_requests := limit }
    | none => s
  let s := match info.remaining_requests with
    | some remaining => { s with remaining_requests := remaining }
    | none => s
  let s := match info.reset_requests with
    | some reset => { s with reset_time_requests := i64ofU64 reset }
    | none => s
  let s := match info.limit_tokens with
    | some limit => { s with max_tokens := limit }
    | none => s
  let s := match info.remaining_tokens with
    | some remaining => { s with remaining_tokens := remaining }
    | none => s
  let s := match info.reset_tokens with
    | some reset => { s with reset_time_tokens := i64ofU64 ((now + reset) % 2 ^ 64) }
    | none => s
  s

/-- A sequence of `update_from_response` calls (all at wall-clock `now`). -/
def apply_updates (s : RateLimiterState) (infos : List RateLimitInfo) (now : Nat) :
    RateLimiterState :=
  infos.foldl (fun s info => update_from_response s info now) s

/-- `RateLimiter::is_rate_limited` (src/rate_limit.rs). -/
def RateLimiterState.is_rate_limited (s : RateLimiterState) : Bool :=
  s.remaining_requests = 0 || s.remaining_tokens = 0

/-- `RateLimiter::time_until_reset` (src/rate_limit.rs): the smaller of
the two reset horizons lying strictly in the future, `None` when both
are in the past; `now` is the wall clock in seconds. -/
def time_until_reset (s : RateLimiterState) (now : Nat) : Option Nat :=
  let nowI : Int := (now : Int)
  let earliest_reset : Option Nat :=
    if s.reset_time_requests > nowI then some (s.reset_time_requests - nowI).toNat
    else none
  let earliest_reset : Option Nat :=
    if s.reset_time_tokens > nowI then
      let tokens_reset := (s.reset_time_tokens - nowI).toNat
      match earliest_reset with
      | some time => some (min time tokens_reset)
      | none => some tokens_reset
    else earliest_reset
  earliest_reset

/-- `RateLimiter::acquire` (src/rate_limit.rs).  The returned `Nat` is
the number of seconds the call sleeps before returning `Ok` (0 when the
limiter is open; the code skips the `sleep` call when the wait is 0). -/
def acquire (s : RateLimiterState) (cfg : RateLimiterConfig) (now : Nat) :
    Except VeniceError Nat :=
  if !s.is_rate_limited then
    .ok 0
  else if !cfg.auto_wait then
    .error (.rateLimitExceeded
      "Rate limit exceeded. Consider enabling auto_wait or implementing backoff.")
  else
    match time_until_reset s now with
    | some wait_time => .ok (min wait_time cfg.max_wait_time)
    | none => .error (.rateLimitExceeded "Rate limit exceeded and reset time is unknown.")

/-! ## Retry policy (src/retry.rs, src/middleware/retry.rs) -/

/-- `RetryConfig` (src/retry.rs); the `f64` backoff factor is a
rational. -/
structure RetryConfig where
  max_retries : Nat
  initial_delay_ms : Nat
  max_delay_ms : Nat
  backoff_factor : ℚ
  add_jitter : Bool
  deriving DecidableEq, Repr

/-- `RetryConfig::default()`. -/
def RetryConfig.default : RetryConfig :=
  { max_retries := 3, initial_delay_ms := 500, max_delay_ms := 10000
    backoff_factor := 2, add_jitter := true }

/-- The uncapped base of `RetryConfig::calculate_delay`:
`(initial_delay_ms as f64 * backoff_factor.powi(attempt)) as u64`.
The `as u64` cast truncates toward zero and clamps negatives to 0,
which `Nat.floor` matches for the nonnegative factors in use. -/
def calculate_delay_base (cfg : RetryConfig) (attempt : Nat) : Nat :=
  ⌊(cfg.initial_delay_ms : ℚ) * cfg.backoff_factor ^ attempt⌋₊

/-- `RetryConfig::calculate_delay` (src/retry.rs), in milliseconds.
`jitter_rand` stands for `rand::random::<f64>()`, a sample of `[0, 1)`;
the jitter multiplier is `0.5 + jitter_rand`. -/
def calculate_delay (cfg : RetryConfig) (attempt : Nat) (jitter_rand : ℚ) : Nat :=
  let delay := min (calculate_delay_base cfg attempt) cfg.max_delay_ms
  if cfg.add_jitter then
    ⌊(delay : ℚ) * (1 / 2 + jitter_rand)⌋₊
  else
    delay

/-- `RetryMiddleware::calculate_delay` (src/middleware/retry.rs), in
milliseconds.  Exponent is `attempt - 1` (as `i32`, hence `Int`
subtraction and `zpow`); `jitter_rand` stands for
`thread_rng().gen_range(0.0..0.5)`, a sample of `[0, 0.5)`; the jitter
multiplier is `1.0 + jitter_rand`, applied after the cap; the final
`as u64` truncates. -/
def middleware_calculate_delay (cfg : RetryConfig) (attempt : Nat) (jitter_rand : ℚ) : Nat :=
  let base_delay : ℚ := (cfg.initial_delay_ms : ℚ) * cfg.backoff_factor ^ ((attempt : ℤ) - 1)
  let delay := min base_delay (cfg.max_delay_ms : ℚ)
  let delay := if cfg.add_jitter then delay * (1 + jitter_rand) else delay
  ⌊delay⌋₊

/-- The spec's delay formula: `min(initial_delay * backoff_factor^(n-1),
max_delay)` for attempt `n` (1-indexed).  Spec-side definition, for
comparison with the code's `calculate_delay`. -/
def spec_delay_formula (initial_delay_ms max_delay_ms : Nat) (backoff_factor : ℚ)
    (n : Nat) : ℚ :=
  min ((initial_delay_ms : ℚ) * backoff_factor ^ (n - 1)) (max_delay_ms : ℚ)

/-- `is_retryable_error` (src/retry.rs): network and rate-limit errors
retryable, `ApiError` retryable iff 5xx, everything else fatal. -/
def is_retryable_error (e : VeniceError) : Bool :=
  match e with
  | .httpError _ => true
  | .rateLimitExceeded _ => true
  | .apiError status _ _ => 500 ≤ status && status < 600
  | _ => false

/-- The loop of `with_retry` (src/retry.rs).  The wrapped operation is
modelled as `f i`, the outcome of its `i`-th invocation (0-indexed);
`i` counts failures so far and `fuel = max_retries - i` tracks the
remaining retry budget (the code's `attempt > max_retries` test with
`attempt = i + 1` is exactly `fuel = 0`).  Returns the final result
together with the total number of invocations. -/
def with_retry_go {T : Type} (f : Nat → Except VeniceError T) :
    Nat → Nat → Except VeniceError T × Nat
  | i, fuel =>
    match f i with
    | .ok result => (.ok result, i + 1)
    | .error error =>
      if is_retryable_error error then
        match fuel with
        | 0 => (.error error, i + 1)
        | fuel' + 1 => with_retry_go f (i + 1) fuel'
      else
        (.error error, i + 1)

/-- `with_retry` (src/retry.rs): invoke `f` until success, a fatal
error, or the retry budget is exhausted.  Result plus total invocation
count. -/
def with_retry {T : Type} (f : Nat → Except VeniceError T) (cfg : RetryConfig) :
    Except VeniceError T × Nat :=
  with_retry_go f 0 cfg.max_retries

/-! ## Paginator (src/pagination.rs) -/

/-- `PaginationParams` (src/pagination.rs). -/
structure PaginationParams where
  limit : Option Nat
  cursor : Option String
  deriving DecidableEq, Repr

/-- The view of a page response `R` through the `PaginationInfo` trait
(src/pagination.rs): `get_data()`, `has_more()`, `next_cursor()`. -/
structure PageResponse (T : Type) where
  data : List T
  has_more : Bool
  next_cursor : Option String
  deriving DecidableEq, Repr

/-- `PaginatedResponse` (src/pagination.rs), the value `next_page`
hands back. -/
structure PaginatedResponse (T : Type) where
  data : List T
  has_more : Bool
  next_cursor : Option String
  rate_limit_info : RateLimitInfo

/-- The mutable fields of `GenericPaginator`: the current params and the
`has_more` flag (initially `true`). -/
structure PaginatorState where
  params : PaginationParams
  has_more : Bool
  deriving DecidableEq, Repr

/-- The fetch function `F: Fn(PaginationParams) -> VeniceResult<(R,
RateLimitInfo)>` of `GenericPaginator`, with `R` already viewed through
`PaginationInfo`. -/
abbrev FetchPage (T : Type) :=
  PaginationParams → Except VeniceError (PageResponse T × RateLimitInfo)

/-- `GenericPaginator::next_page` (src/pagination.rs).  Returns the
result, the updated paginator state, and whether the fetch function was
invoked.  A terminal paginator returns `Ok(None)` without fetching; a
fetch error propagates leaving the state unchanged; otherwise the state
takes the response's `has_more`, takes the new cursor when present, and
turns terminal when the cursor is absent. -/
def next_page {T : Type} (fetch : FetchPage T) (s : PaginatorState) :
    Except VeniceError (Option (PaginatedResponse T)) × PaginatorState × Bool :=
  if !s.has_more then
    (.ok none, s, false)
  else
    match fetch s.params with
    | .error e => (.error e, s, true)
    | .ok (response, rate_limit_info) =>
      let s1 : PaginatorState := { s with has_more := response.has_more }
      let s2 : PaginatorState :=
        match response.next_cursor with
        | some cursor => { s1 with params := { s1.params with cursor := some cursor } }
        | none => { s1 with has_more := false }
      (.ok (some { data := response.data, has_more := response.has_more,
                   next_cursor := response.next_cursor,
                   rate_limit_info := rate_limit_info }), s2, true)

/-- The `while let` loop of `GenericPaginator::all_pages`
(src/pagination.rs), with accumulator `acc` and step fuel (the Rust loop
is unbounded; `none` means the loop was still running after `fuel`
iterations). -/
def all_pages_go {T : Type} (fetch : FetchPage T) (acc : List T) (s : PaginatorState) :
    Nat → Option (Except VeniceError (List T))
  | 0 => none
  | fuel + 1 =>
    match next_page fetch s with
    | (.error e, _, _) => some (.error e)
    | (.ok none, _, _) => some (.ok acc)
    | (.ok (some page), s1, _) =>
      if !page.has_more then some (.ok (acc ++ page.data))
      else all_pages_go fetch (acc ++ page.data) s1 fuel

/-- `GenericPaginator::all_pages` (src/pagination.rs): drain pages,
concatenating their items, propagating the first error. -/
def all_pages {T : Type} (fetch : FetchPage T) (s : PaginatorState) (fuel : Nat) :
    Option (Except VeniceError (List T)) :=
  all_pages_go fetch [] s fuel

/-- Spec-side companion of `all_pages`: the list of pages the drain loop
consumes, under the same fuel.  Used to state that `all_pages` returns
exactly the in-order concatenation of these pages' items, or the first
fetch error with no partial items. -/
def page_trace {T : Type} (fetch : FetchPage T) (s : PaginatorState) :
    Nat → Option (Except VeniceError (List (PaginatedResponse T)))
  | 0 => none
  | fuel + 1 =>
    match next_page fetch s with
    | (.error e, _, _) => some (.error e)
    | (.ok none, _, _) => some (.ok [])
    | (.ok (some page), s1, _) =>
      if !page.has_more then some (.ok [page])
      else (page_trace fetch s1 fuel).map (fun r => r.map (fun ps => page :: ps))

/-! ## Streaming decoder (src/http/response_processor.rs, lines 200-248)

The SSE decoding pipeline of `process_streaming_response`: each byte
read from the transport is UTF-8 decoded and split into lines; each
`data: ` line (other than the `[DONE]` sentinel) is JSON-parsed, a read
yielding at most one item (the last parsed line); reads with no data
line are filtered out of the item sequence.  JSON parsing into the chunk
type `T` is abstracted as `parse : String → Except String T` (the
`Except` carrying the serde error message). -/

/-- Rust `str::lines`: split on `\n`, no trailing empty line for a
trailing newline, and a trailing `\r` stripped from each line. -/
def rust_lines (s : String) : List String :=
  let parts := str_splitOnChar '\n' s
  let parts := if parts.getLast? = some "" then parts.dropLast else parts
  parts.map (fun l => if str_endsWith l "\r" then str_dropLastChar l else l)

/-- Rust `str::trim_start_matches`: repeatedly remove the pattern from
the front while it matches (fuelled by the string length; each step of
a nonempty pattern strictly shortens the string). -/
def trim_start_matches_go (pat : String) : Nat → String → String
  | 0, s => s
  | n + 1, s =>
    if str_length pat > 0 && str_startsWith s pat then
      trim_start_matches_go pat n (str_drop s (str_length pat))
    else s

/-- Rust `s.trim_start_matches(pat)`. -/
def trim_start_matches (s pat : String) : String :=
  trim_start_matches_go pat (str_length s) s

/-- The `for line in chunk_str.lines()` loop of
`process_streaming_response`: `result` is the running `Option` that each
successfully parsed `data: ` line overwrites; the `[DONE]` sentinel is
skipped (`continue`); a parse failure returns immediately through `?`. -/
def process_lines {T : Type} (parse : String → Except String T) :
    List String → Option T → Except VeniceError (Option T)
  | [], result => .ok result
  | line :: rest, result =>
    if str_startsWith line "data: " then
      let data := trim_start_matches line "data: "
      if data = "[DONE]" then
        process_lines parse rest result
      else
        match parse data with
        | .ok chunk => process_lines parse rest (some chunk)
        | .error e => .error (.parseError ("Failed to parse JSON: " ++ e))
    else
      process_lines parse rest result

/-- The `and_then` closure of `process_streaming_response` applied to one
decoded byte read: the final `result` if a data line was parsed, the
"No data found in chunk" error otherwise. -/
def process_chunk {T : Type} (parse : String → Except String T) (chunk_str : String) :
    Except VeniceError T :=
  match process_lines parse (rust_lines chunk_str) none with
  | .error e => .error e
  | .ok (some data) => .ok data
  | .ok none => .error (.parseError "No data found in chunk")

/-- The full stream pipeline of `process_streaming_response` over the
list of underlying byte reads (`.error` reads model transport errors,
mapped to `HttpError`; read contents are taken as already valid UTF-8).
The trailing `filter_map` drops exactly the `ParseError "No data found
in chunk"` items. -/
def process_stream {T : Type} (parse : String → Except String T)
    (reads : List (Except String String)) : List (Except VeniceError T) :=
  reads.filterMap (fun read =>
    match read with
    | .error e => some (.error (.httpError e))
    | .ok chunk_str =>
      match process_chunk parse chunk_str with
      | .ok data => some (.ok data)
      | .error (.parseError msg) =>
        if msg = "No data found in chunk" then none
        else some (.error (.parseError msg))
      | .error e => some (.error e))

/-- The payload a single line contributes to the decoding loop: `none`
for non-`data: ` lines and for the `[DONE]` sentinel. -/
def payload_of (line : String) : Option String :=
  if str_startsWith line "data: " then
    let d := trim_start_matches line "data: "
    if d = "[DONE]" then none else some d
  else none

/-- The `data: ` payloads of one read, in line order, with the `[DONE]`
sentinel dropped — the lines the decoding loop actually parses. -/
def data_payloads (chunk_str : String) : List String :=
  (rust_lines chunk_str).filterMap payload_of

/-- `process_lines` seen at the payload level: parse the payloads in
order, the last success winning, the first failure aborting. -/
def payload_scan {T : Type} (parse : String → Except String T) :
    List String → Option T → Except VeniceError (Option T)
  | [], result => .ok result
  | d :: ds, _ =>
    match parse d with
    | .ok chunk => payload_scan parse ds (some chunk)
    | .error e => .error (.parseError ("Failed to parse JSON: " ++ e))

/-- The item a payload becomes in the output sequence: the parsed chunk,
or a `ParseError` wrapping the serde message. -/
def parse_item {T : Type} (parse : String → Except String T) (d : String) :
    Except VeniceError T :=
  match parse d with
  | .ok chunk => .ok chunk
  | .error e => .error (.parseError ("Failed to parse JSON: " ++ e))

/-! ## Fixtures and statement helpers -/

/-- The last element of a list, or `default` for the empty list (used to
phrase "the most recently applied snapshot's present field"). -/
def last_elem {α : Type} (l : List α) (default : α) : α :=
  l.foldl (fun _ a => a) default

/-- A concrete JSON-parse oracle for witnesses: payloads that are decimal
numerals decode, everything else is a parse failure carrying the payload. -/
def nat_parse (s : String) : Except String Nat :=
  match str_toNat? s with
  | some n => .ok n
  | none => .error s

/-- A snapshot with every field absent, for witnesses. -/
def empty_info : RateLimitInfo :=
  { limit_requests := none, remaining_requests := none, reset_requests := none
    limit_tokens := none, remaining_tokens := none, reset_tokens := none
    balance_vcu := none, balance_usd := none }

/-! # Theorems settling the claims -/

/-- Claim C9, counterexample: when the base URL has a trailing slash and
the endpoint a leading slash, `build_url` keeps both, producing a double
slash — not "exactly one separating slash regardless of trailing/leading
slashes on either part". -/
theorem c9_counterexample :
    build_url "https://api.example.com/v1/" "/models" = "https://api.example.com/v1//models" ∧
    build_url "https://api.example.com/v1/" "/models" ≠ "https://api.example.com/v1/models" := by
  constructor <;> decide

/-- Claim C9, amended: `build_url` inserts exactly one separating slash
when the base has no trailing slash and the endpoint no leading slash
(in particular the `"models"` / `"/models"` scenario both yield
`".../v1/models"`); when either part already carries a slash the two
strings are concatenated unchanged, so a trailing slash plus a leading
slash yields a double slash. -/
theorem c9_theorem (base_url endpoint : String) :
    (str_endsWith base_url "/" = false → str_startsWith endpoint "/" = false →
      build_url base_url endpoint = base_url ++ "/" ++ endpoint) ∧
    (str_endsWith base_url "/" = true ∨ str_startsWith endpoint "/" = true →
      build_url base_url endpoint = base_url ++ endpoint) ∧
    build_url "https://api.example.com/v1" "models" = "https://api.example.com/v1/models" ∧
    build_url "https://api.example.com/v1" "/models" = "https://api.example.com/v1/models" := by
  refine ⟨?_, ?_, by decide, by decide⟩
  · intro h1 h2
    simp [build_url, h1, h2]
  · intro h
    rcases h with h | h <;> simp [build_url, h]

/-- Witness for C9 at concrete inputs. -/
theorem c9_witness :
    build_url "https://api.example.com/v1" "models" =
      "https://api.example.com/v1" ++ "/" ++ "models" ∧
    build_url "https://api.example.com/v1/" "models" =
      "https://api.example.com/v1/" ++ "models" :=
  ⟨(c9_theorem ("https://api.example.com/v1") ("models")).1 (by decide) (by decide),
   (c9_theorem ("https://api.example.com/v1/") ("models")).2.1 (Or.inl (by decide))⟩

/-- Claim C2, counterexample: with both reset horizons in the past,
`time_until_reset` is `None` and `acquire` returns `RateLimitExceeded`
even though auto-wait is enabled — refuting "it never returns
RateLimitExceeded to the caller in the auto-wait-enabled case". -/
theorem c2_counterexample :
    acquire { RateLimiterState.initial with remaining_requests := 0 }
        { auto_wait := true, max_wait_time := 60 } 100 =
      .error (.rateLimitExceeded "Rate limit exceeded and reset time is unknown.") := by
  decide

/-- Claim C2, amended: `acquire` returns `Ok` immediately when both
counters are positive; returns `RateLimitExceeded` immediately when
exhausted with auto-wait disabled; when exhausted with auto-wait enabled
it suspends for `min(time_until_reset, max_wait_time)` and returns `Ok`
provided `time_until_reset` is `Some` — but when both reset horizons are
in the past (`time_until_reset = None`) it returns `RateLimitExceeded`
even with auto-wait enabled. -/
theorem c2_theorem (s : RateLimiterState) (cfg : RateLimiterConfig) (now : Nat) :
    (0 < s.remaining_requests → 0 < s.remaining_tokens → acquire s cfg now = .ok 0) ∧
    (s.is_rate_limited = true → cfg.auto_wait = false →
      acquire s cfg now = .error (.rateLimitExceeded
        "Rate limit exceeded. Consider enabling auto_wait or implementing backoff.")) ∧
    (∀ w, s.is_rate_limited = true → cfg.auto_wait = true →
      time_until_reset s now = some w →
      acquire s cfg now = .ok (min w cfg.max_wait_time)) ∧
    (s.is_rate_limited = true → cfg.auto_wait = true →
      time_until_reset s now = none →
      acquire s cfg now = .error (.rateLimitExceeded
        "Rate limit exceeded and reset time is unknown.")) := by
  refine ⟨?_, ?_, ?_, ?_⟩
  · intro h1 h2
    have hrl : s.is_rate_limited = false := by
      simp [RateLimiterState.is_rate_limited, Nat.pos_iff_ne_zero.mp h1,
        Nat.pos_iff_ne_zero.mp h2]
    simp [acquire, hrl]
  · intro h1 h2
    simp [acquire, h1, h2]
  · intro w h1 h2 h3
    simp [acquire, h1, h2, h3]
  · intro h1 h2 h3
    simp [acquire, h1, h2, h3]

/-- Witness for C2 at concrete states. -/
theorem c2_witness :
    acquire RateLimiterState.initial { auto_wait := true, max_wait_time := 60 } 0 = .ok 0 ∧
    acquire { RateLimiterState.initial with remaining_tokens := 0 }
        { auto_wait := false, max_wait_time := 60 } 0 =
      .error (.rateLimitExceeded
        "Rate limit exceeded. Consider enabling auto_wait or implementing backoff.") ∧
    acquire { RateLimiterState.initial with remaining_tokens := 0, reset_time_tokens := 50 }
        { auto_wait := true, max_wait_time := 60 } 10 = .ok (min 40 60) :=
  ⟨(c2_theorem _ _ _).1 (by decide) (by decide),
   (c2_theorem _ _ _).2.1 (by decide) rfl,
   (c2_theorem _ _ _).2.2.1 40 (by decide) rfl (by decide)⟩

/-- Claim C1, counterexample: a 429 response with header
`x-ratelimit-remaining-requests: 0` makes `process_response` return
`Err(RateLimitExceeded)` carrying only a formatted message — the parsed
snapshot (which does have `remaining_requests = Some 0`) is not yielded
to the caller alongside the error, refuting "the caller still obtains a
snapshot". -/
theorem c1_counterexample :
    process_response (T := Unit)
        { status := 429, headers := [("x-ratelimit-remaining-requests", "0")],
          body := .error "", body_text := "", error_body := .notJson } =
      .error (.rateLimitExceeded
        "Rate limit exceeded: Rate Limit Info: 0/0 requests, 0/0 tokens") ∧
    (RateLimitInfo.from_headers
        [("x-ratelimit-remaining-requests", "0")]).remaining_requests = some 0 ∧
    (process_response (T := Unit)
        { status := 429, headers := [("x-ratelimit-remaining-requests", "0")],
          body := .error "", body_text := "", error_body := .notJson }).isOk = false := by
  refine ⟨by decide, by decide, by decide⟩

/-- Claim C1, amended: `process_response` parses a rate-limit snapshot
from the headers of every response, but returns it to the caller only on
the success path (2xx status and parseable body); a 429 yields
`RateLimitExceeded` whose message merely embeds the snapshot's `Display`
rendering. -/
theorem c1_theorem {T : Type} (r : HttpResponse T) (t : T) :
    (is_success r.status = true → r.body = .ok t →
      process_response r = .ok (t, RateLimitInfo.from_headers r.headers)) ∧
    (r.status = 429 →
      process_response r = .error (.rateLimitExceeded
        ("Rate limit exceeded: " ++ (RateLimitInfo.from_headers r.headers).display))) := by
  constructor
  · intro hs hb
    have h429 : r.status ≠ 429 := by
      intro h
      rw [h] at hs
      exact absurd hs (by decide)
    simp [process_response, h429, hs, hb]
  · intro h429
    simp [process_response, h429]

/-- Witness for C1: a concrete 200 and a concrete 429. -/
theorem c1_witness :
    process_response
        { status := 200, headers := [("x-ratelimit-remaining-requests", "5")],
          body := .ok 7, body_text := "", error_body := .noErrorField } =
      .ok (7, RateLimitInfo.from_headers [("x-ratelimit-remaining-requests", "5")]) ∧
    process_response (T := Nat)
        { status := 429, headers := [], body := .error "", body_text := "",
          error_body := .notJson } =
      .error (.rateLimitExceeded
        ("Rate limit exceeded: " ++ (RateLimitInfo.from_headers []).display)) :=
  ⟨(c1_theorem _ 7).1 (by decide) rfl, (c1_theorem _ 7).2 rfl⟩

/-- `update_from_response`, written as one record update: each field is
the snapshot's converted value when present, the old value otherwise. -/
lemma update_from_response_eq (s : RateLimiterState) (i : RateLimitInfo) (now : Nat) :
    update_from_response s i now =
      { max_requests := i.limit_requests.getD s.max_requests
        remaining_requests := i.remaining_requests.getD s.remaining_requests
        reset_time_requests := (i.reset_requests.map i64ofU64).getD s.reset_time_requests
        max_tokens := i.limit_tokens.getD s.max_tokens
        remaining_tokens := i.remaining_tokens.getD s.remaining_tokens
        reset_time_tokens := (i.reset_tokens.map
          (fun reset => i64ofU64 ((now + reset) % 2 ^ 64))).getD s.reset_time_tokens } := by
  rcases i with ⟨lr, rr, rsr, lt, rt, rst, bv, bu⟩
  cases lr <;> cases rr <;> cases rsr <;> cases lt <;> cases rt <;> cases rst <;> rfl

/-- Applying the same snapshot twice (at the same wall-clock second)
equals applying it once. -/
lemma update_from_response_idem (s : RateLimiterState) (i : RateLimitInfo) (now : Nat) :
    update_from_response (update_from_response s i now) i now =
      update_from_response s i now := by
  rcases i with ⟨lr, rr, rsr, lt, rt, rst, bv, bu⟩
  cases lr <;> cases rr <;> cases rsr <;> cases lt <;> cases rt <;> cases rst <;> rfl

lemma last_elem_cons {α : Type} (a x : α) (t : List α) :
    last_elem (a :: t) x = last_elem t a := rfl

lemma apply_updates_cons (s : RateLimiterState) (i : RateLimitInfo)
    (l : List RateLimitInfo) (now : Nat) :
    apply_updates s (i :: l) now = apply_updates (update_from_response s i now) l now := rfl

lemma apply_updates_max_requests (l : List RateLimitInfo) (s : RateLimiterState) (now : Nat) :
    (apply_updates s l now).max_requests =
      last_elem (l.filterMap RateLimitInfo.limit_requests) s.max_requests := by
  induction l generalizing s with
  | nil => rfl
  | cons i l ih =>
    rw [apply_updates_cons, ih]
    cases h : i.limit_requests <;>
      simp [List.filterMap_cons, h, update_from_response_eq, last_elem_cons]

lemma apply_updates_remaining_requests (l : List RateLimitInfo) (s : RateLimiterState)
    (now : Nat) :
    (apply_updates s l now).remaining_requests =
      last_elem (l.filterMap RateLimitInfo.remaining_requests) s.remaining_requests := by
  induction l generalizing s with
  | nil => rfl
  | cons i l ih =>
    rw [apply_updates_cons, ih]
    cases h : i.remaining_requests <;>
      simp [List.filterMap_cons, h, update_from_response_eq, last_elem_cons]

lemma apply_updates_reset_time_requests (l : List RateLimitInfo) (s : RateLimiterState)
    (now : Nat) :
    (apply_updates s l now).reset_time_requests =
      last_elem ((l.filterMap RateLimitInfo.reset_requests).map i64ofU64)
        s.reset_time_requests := by
  induction l generalizing s with
  | nil => rfl
  | cons i l ih =>
    rw [apply_updates_cons, ih]
    cases h : i.reset_requests <;>
      simp [List.filterMap_cons, h, update_from_response_eq, last_elem_cons]

lemma apply_updates_max_tokens (l : List RateLimitInfo) (s : RateLimiterState) (now : Nat) :
    (apply_updates s l now).max_tokens =
      last_elem (l.filterMap RateLimitInfo.limit_tokens) s.max_tokens := by
  induction l generalizing s with
  | nil => rfl
  | cons i l ih =>
    rw [apply_updates_cons, ih]
    cases h : i.limit_tokens <;>
      simp [List.filterMap_cons, h, update_from_response_eq, last_elem_cons]

lemma apply_updates_remaining_tokens (l : List RateLimitInfo) (s : RateLimiterState)
    (now : Nat) :
    (apply_updates s l now).remaining_tokens =
      last_elem (l.filterMap RateLimitInfo.remaining_tokens) s.remaining_tokens := by
  induction l generalizing s with
  | nil => rfl
  | cons i l ih =>
    rw [apply_updates_cons, ih]
    cases h : i.remaining_tokens <;>
      simp [List.filterMap_cons, h, update_from_response_eq, last_elem_cons]

lemma apply_updates_reset_time_tokens (l : List RateLimitInfo) (s : RateLimiterState)
    (now : Nat) :
    (apply_updates s l now).reset_time_tokens =
      last_elem ((l.filterMap RateLimitInfo.reset_tokens).map
          (fun reset => i64ofU64 ((now + reset) % 2 ^ 64)))
        s.reset_time_tokens := by
  induction l generalizing s with
  | nil => rfl
  | cons i l ih =>
    rw [apply_updates_cons, ih]
    cases h : i.reset_tokens <;>
      simp [List.filterMap_cons, h, update_from_response_eq, last_elem_cons]

/-- Claim C10: after any sequence of `update_from_response` calls (at
wall-clock `now`), each counter and reset timestamp equals the
(converted) value of the most recent snapshot in which the corresponding
field was present — absent fields leaving the counter unchanged — and
applying the same snapshot twice equals applying it once. -/
theorem c10_theorem (s : RateLimiterState) (l : List RateLimitInfo) (now : Nat)
    (i : RateLimitInfo) :
    ((apply_updates s l now).max_requests =
      last_elem (l.filterMap RateLimitInfo.limit_requests) s.max_requests) ∧
    ((apply_updates s l now).remaining_requests =
      last_elem (l.filterMap RateLimitInfo.remaining_requests) s.remaining_requests) ∧
    ((apply_updates s l now).reset_time_requests =
      last_elem ((l.filterMap RateLimitInfo.reset_requests).map i64ofU64)
        s.reset_time_requests) ∧
    ((apply_updates s l now).max_tokens =
      last_elem (l.filterMap RateLimitInfo.limit_tokens) s.max_tokens) ∧
    ((apply_updates s l now).remaining_tokens =
      last_elem (l.filterMap RateLimitInfo.remaining_tokens) s.remaining_tokens) ∧
    ((apply_updates s l now).reset_time_tokens =
      last_elem ((l.filterMap RateLimitInfo.reset_tokens).map
          (fun reset => i64ofU64 ((now + reset) % 2 ^ 64)))
        s.reset_time_tokens) ∧
    update_from_response (update_from_response s i now) i now =
      update_from_response s i now :=
  ⟨apply_updates_max_requests l s now, apply_updates_remaining_requests l s now,
   apply_updates_reset_time_requests l s now, apply_updates_max_tokens l s now,
   apply_updates_remaining_tokens l s now, apply_updates_reset_time_tokens l s now,
   update_from_response_idem s i now⟩

/-- One-step unfolding of the retry loop. -/
lemma with_retry_go_eq {T : Type} (f : Nat → Except VeniceError T) (i fuel : Nat) :
    with_retry_go f i fuel =
      match f i with
      | .ok result => (.ok result, i + 1)
      | .error error =>
        if is_retryable_error error then
          match fuel with
          | 0 => (.error error, i + 1)
          | fuel' + 1 => with_retry_go f (i + 1) fuel'
        else
          (.error error, i + 1) := by
  rw [with_retry_go.eq_def]

/-- The retry loop performs at most `fuel + 1` invocations beyond the
`i` already made. -/
lemma with_retry_go_count_le {T : Type} (f : Nat → Except VeniceError T) :
    ∀ (fuel i : Nat), (with_retry_go f i fuel).2 ≤ i + fuel + 1 := by
  intro fuel
  induction fuel with
  | zero =>
    intro i
    rw [with_retry_go_eq]
    cases h : f i with
    | ok t => simp
    | error e =>
      by_cases hr : is_retryable_error e <;> simp [hr]
  | succ fuel ih =>
    intro i
    rw [with_retry_go_eq]
    cases h : f i with
    | ok t => simp
    | error e =>
      by_cases hr : is_retryable_error e
      · simp only [hr, if_true]
        exact (ih (i + 1)).trans (by omega)
      · simp [hr]

/-- When every invocation fails retryably, the loop drains the budget
and returns the last error. -/
lemma with_retry_go_all_fail {T : Type} (f : Nat → Except VeniceError T)
    (errs : Nat → VeniceError) (h1 : ∀ j, f j = .error (errs j))
    (h2 : ∀ j, is_retryable_error (errs j) = true) :
    ∀ (fuel i : Nat), with_retry_go f i fuel = (.error (errs (i + fuel)), i + fuel + 1) := by
  intro fuel
  induction fuel with
  | zero =>
    intro i
    rw [with_retry_go_eq, h1 i]
    simp [h2 i]
  | succ fuel ih =>
    intro i
    rw [with_retry_go_eq, h1 i]
    simp only [h2 i, if_true]
    rw [ih (i + 1)]
    have e1 : i + 1 + fuel = i + (fuel + 1) := by omega
    rw [e1]

/-- When all invocations before `i + fuel` fail retryably and invocation
`i + fuel` succeeds, the loop returns that success. -/
lemma with_retry_go_succeeds {T : Type} (f : Nat → Except VeniceError T) (t : T)
    (errs : Nat → VeniceError) :
    ∀ (fuel i : Nat),
      (∀ j, i ≤ j → j < i + fuel →
        f j = .error (errs j) ∧ is_retryable_error (errs j) = true) →
      f (i + fuel) = .ok t →
      with_retry_go f i fuel = (.ok t, i + fuel + 1) := by
  intro fuel
  induction fuel with
  | zero =>
    intro i _ hok
    simp at hok
    rw [with_retry_go_eq, hok]
  | succ fuel ih =>
    intro i hfail hok
    obtain ⟨hf, hr⟩ := hfail i (le_refl i) (by omega)
    rw [with_retry_go_eq, hf]
    simp only [hr, if_true]
    rw [ih (i + 1) (fun j h1 h2 => hfail j (by omega) (by omega))
      (by rw [show i + 1 + fuel = i + (fuel + 1) from by omega]; exact hok)]
    have e1 : i + 1 + fuel = i + (fuel + 1) := by omega
    rw [e1]

/-- Claim C8: with `max_retries = k`, a fatal first failure is returned
after exactly one invocation; all-retryable failures exhaust the budget
in exactly `k + 1` invocations, returning the last error; retryable
failures on the first `k` attempts followed by a success on attempt
`k + 1` return that success after exactly `k + 1` invocations; and the
total invocation count never exceeds `k + 1`. -/
theorem c8_theorem {T : Type} (f : Nat → Except VeniceError T) (cfg : RetryConfig)
    (e : VeniceError) (errs : Nat → VeniceError) (t : T) :
    (f 0 = .error e → is_retryable_error e = false →
      with_retry f cfg = (.error e, 1)) ∧
    ((∀ j, f j = .error (errs j)) → (∀ j, is_retryable_error (errs j) = true) →
      with_retry f cfg = (.error (errs cfg.max_retries), cfg.max_retries + 1)) ∧
    ((∀ j, j < cfg.max_retries →
        f j = .error (errs j) ∧ is_retryable_error (errs j) = true) →
      f cfg.max_retries = .ok t →
      with_retry f cfg = (.ok t, cfg.max_retries + 1)) ∧
    (with_retry f cfg).2 ≤ cfg.max_retries + 1 := by
  refine ⟨?_, ?_, ?_, ?_⟩
  · intro h1 h2
    rw [with_retry, with_retry_go_eq, h1]
    simp [h2]
  · intro h1 h2
    have h := with_retry_go_all_fail f errs h1 h2 cfg.max_retries 0
    simpa [with_retry] using h
  · intro hfail hok
    have h := with_retry_go_succeeds f t errs cfg.max_retries 0
      (fun j _ hj => hfail j (by omega)) (by simpa using hok)
    simpa [with_retry] using h
  · have h := with_retry_go_count_le f cfg.max_retries 0
    simpa [with_retry] using h

/-- Witness for C8 at concrete operations (`max_retries = 3`). -/
theorem c8_witness :
    with_retry (fun _ => (.error (.invalidInput "Invalid input") : Except VeniceError Nat))
        RetryConfig.default = (.error (.invalidInput "Invalid input"), 1) ∧
    with_retry (fun _ => (.error (.httpError "connection reset") : Except VeniceError Nat))
        RetryConfig.default = (.error (.httpError "connection reset"), 4) ∧
    with_retry
        (fun j => if j < 3 then (.error (.httpError "connection reset") : Except VeniceError Nat)
          else .ok 42)
        RetryConfig.default = (.ok 42, 4) :=
  ⟨(c8_theorem _ RetryConfig.default (.invalidInput "Invalid input")
      (fun _ => .unknown "") 0).1 rfl rfl,
   (c8_theorem _ RetryConfig.default (.unknown "")
      (fun _ => .httpError "connection reset") 0).2.1 (fun _ => rfl) (fun _ => rfl),
   (c8_theorem _ RetryConfig.default (.unknown "")
      (fun _ => .httpError "connection reset") 42).2.2.1
     (fun j hj => by
       refine ⟨?_, rfl⟩
       have hj3 : j < 3 := hj
       simp [hj3])
     (by decide)⟩

/-- Claim C6: the paginator's terminal state is absorbing — once
`has_more` is false `next_page` returns no page without invoking the
fetch function — and observing a page with `has_more = false`, or with
an absent `next_cursor` even when `has_more = true`, makes the state
terminal, so any accompanying cursor is never used to fetch again. -/
theorem c6_theorem {T : Type} (fetch : FetchPage T) (s : PaginatorState) :
    (s.has_more = false → next_page fetch s = (.ok none, s, false)) ∧
    (s.has_more = true → ∀ resp info, fetch s.params = .ok (resp, info) →
      (resp.has_more = false ∨ resp.next_cursor = none) →
      ((next_page fetch s).2.1).has_more = false) := by
  constructor
  · intro h
    simp [next_page, h]
  · intro hm resp info hf hterm
    cases hc : resp.next_cursor with
    | none => simp [next_page, hm, hf, hc]
    | some c =>
      rcases hterm with h1 | h1
      · simp [next_page, hm, hf, hc, h1]
      · rw [hc] at h1
        simp at h1

/-- Witness for C6: a terminal paginator does not fetch, and a page with
`has_more = false` turns the state terminal even though it carries a
cursor. -/
theorem c6_witness :
    next_page (T := Nat) (fun _ => .ok ({ data := [1], has_more := true, next_cursor := some "c" },
        empty_info)) { params := { limit := none, cursor := none }, has_more := false } =
      (.ok none, { params := { limit := none, cursor := none }, has_more := false }, false) ∧
    ((next_page (T := Nat)
        (fun _ => .ok ({ data := [1], has_more := false, next_cursor := some "c" }, empty_info))
        { params := { limit := none, cursor := none }, has_more := true }).2.1).has_more
      = false :=
  ⟨(c6_theorem _ _).1 rfl,
   (c6_theorem _ _).2 rfl { data := [1], has_more := false, next_cursor := some "c" }
     empty_info rfl (Or.inl rfl)⟩

lemma exceptMap_comp {ε α β γ : Type} (e : Except ε α) (f : α → β) (g : β → γ) :
    (e.map f).map g = e.map (fun a => g (f a)) := by
  cases e <;> rfl

/-- The drain loop with accumulator `acc` returns `acc` followed by the
concatenated data of the trace's pages, or the trace's error. -/
lemma all_pages_go_eq {T : Type} (fetch : FetchPage T) :
    ∀ (fuel : Nat) (acc : List T) (s : PaginatorState),
      all_pages_go fetch acc s fuel =
        (page_trace fetch s fuel).map (fun r =>
          r.map (fun ps => acc ++ (ps.map PaginatedResponse.data).flatten)) := by
  intro fuel
  induction fuel with
  | zero => intro acc s; rfl
  | succ fuel ih =>
    intro acc s
    rcases hnp : next_page fetch s with ⟨r, s1, invoked⟩
    cases r with
    | error e => simp [all_pages_go, page_trace, hnp, Except.map]
    | ok op =>
      cases op with
      | none => simp [all_pages_go, page_trace, hnp, Except.map]
      | some page =>
        by_cases hpm : page.has_more
        · rw [show all_pages_go fetch acc s (fuel + 1) =
              all_pages_go fetch (acc ++ page.data) s1 fuel from by
            simp [all_pages_go, hnp, hpm]]
          rw [show page_trace fetch s (fuel + 1) =
              (page_trace fetch s1 fuel).map (fun r => r.map (fun ps => page :: ps)) from by
            simp [page_trace, hnp, hpm]]
          rw [ih]
          cases page_trace fetch s1 fuel with
          | none => rfl
          | some rr =>
            cases rr with
            | error e => rfl
            | ok ps => simp [Except.map, List.append_assoc]
        · simp [all_pages_go, page_trace, hnp, hpm, Except.map]

/-- Claim C7: `all_pages` equals the in-order concatenation of the items
of exactly the pages its loop consumes; in particular a fetch error is
returned verbatim with no partially accumulated items, and an all-success
drain returns every fetched page's items in page order. -/
theorem c7_theorem {T : Type} (fetch : FetchPage T) (s : PaginatorState) (fuel : Nat) :
    all_pages fetch s fuel =
      (page_trace fetch s fuel).map (fun r =>
        r.map (fun ps => (ps.map PaginatedResponse.data).flatten)) := by
  have h := all_pages_go_eq fetch fuel [] s
  simpa [all_pages] using h

lemma floor_min_natCast (a : ℚ) (m : Nat) : ⌊min a (m : ℚ)⌋₊ = min ⌊a⌋₊ m := by
  rcases le_total a (m : ℚ) with h | h
  · rw [min_eq_left h]
    have h2 : ⌊a⌋₊ ≤ m := by
      have h3 := Nat.floor_le_floor h
      rwa [Nat.floor_natCast] at h3
    rw [min_eq_left h2]
  · rw [min_eq_right h]
    have h2 : m ≤ ⌊a⌋₊ := Nat.le_floor h
    rw [Nat.floor_natCast, min_eq_right h2]

/-- Claim C3, amended: with jitter disabled, the delay `with_retry`
computes for retry attempt `n` (1-indexed) equals the spec formula at
`n + 1` — one extra backoff factor, `min(initial * factor^n, max)` —
while the middleware's `calculate_delay` matches the spec formula at `n`
exactly; with jitter enabled, `with_retry`'s multiplier is
`0.5 + rand[0,1)`, which for `rand < 0.5` brings the delay strictly
below the capped base, whereas the middleware's multiplier
`1.0 + rand[0,0.5)` never reduces the delay. -/
theorem c3_theorem (cfg : RetryConfig) (n : Nat) (jr : ℚ) (h1 : 1 ≤ n)
    (h2 : 0 ≤ cfg.backoff_factor) (h3 : 0 ≤ jr) :
    (cfg.add_jitter = false →
      calculate_delay cfg n jr =
        ⌊spec_delay_formula cfg.initial_delay_ms cfg.max_delay_ms cfg.backoff_factor
          (n + 1)⌋₊) ∧
    (cfg.add_jitter = false →
      middleware_calculate_delay cfg n jr =
        ⌊spec_delay_formula cfg.initial_delay_ms cfg.max_delay_ms cfg.backoff_factor n⌋₊) ∧
    (cfg.add_jitter = true → jr < 1 / 2 →
      1 ≤ min (calculate_delay_base cfg n) cfg.max_delay_ms →
      calculate_delay cfg n jr < min (calculate_delay_base cfg n) cfg.max_delay_ms) ∧
    (cfg.add_jitter = true →
      middleware_calculate_delay { cfg with add_jitter := false } n jr ≤
        middleware_calculate_delay cfg n jr) := by
  refine ⟨?_, ?_, ?_, ?_⟩
  · intro hj
    simp [calculate_delay, hj, spec_delay_formula, Nat.add_sub_cancel, floor_min_natCast,
      calculate_delay_base]
  · intro hj
    have hz : ((n : ℤ) - 1) = ((n - 1 : ℕ) : ℤ) := by omega
    simp [middleware_calculate_delay, hj, spec_delay_formula, hz, zpow_natCast]
  · intro hj hhalf hpos
    simp only [calculate_delay, hj, if_true]
    have hd : (0 : ℚ) < ((min (calculate_delay_base cfg n) cfg.max_delay_ms : Nat) : ℚ) := by
      exact_mod_cast Nat.lt_of_lt_of_le Nat.zero_lt_one hpos
    rw [Nat.floor_lt (mul_nonneg (le_of_lt hd) (by linarith))]
    calc ((min (calculate_delay_base cfg n) cfg.max_delay_ms : Nat) : ℚ) * (1 / 2 + jr)
        < ((min (calculate_delay_base cfg n) cfg.max_delay_ms : Nat) : ℚ) * 1 :=
          mul_lt_mul_of_pos_left (by linarith) hd
      _ = _ := mul_one _
  · intro hj
    simp only [middleware_calculate_delay, hj, if_true, Bool.false_eq_true, if_false]
    apply Nat.floor_le_floor
    have hdq : 0 ≤ min ((cfg.initial_delay_ms : ℚ) * cfg.backoff_factor ^ ((n : ℤ) - 1))
        ((cfg.max_delay_ms : ℚ)) :=
      le_min (mul_nonneg (Nat.cast_nonneg _) (zpow_nonneg h2 _)) (Nat.cast_nonneg _)
    exact le_mul_of_one_le_right hdq (by linarith)

/-- Claim C3, counterexample: with the default config and jitter off, the
delay computed for retry attempt 1 is 1000 ms, not the spec formula's
`min(500 * 2^0, 10000) = 500` ms; and with jitter on, the random factor
can land at 0.5, producing 500 ms — strictly below the 1000 ms base,
refuting "never reduces the delay below the base". -/
theorem c3_counterexample :
    calculate_delay { RetryConfig.default with add_jitter := false } 1 0 = 1000 ∧
    ⌊spec_delay_formula 500 10000 2 1⌋₊ = 500 ∧
    calculate_delay { RetryConfig.default with add_jitter := false } 1 0 ≠
      ⌊spec_delay_formula 500 10000 2 1⌋₊ ∧
    calculate_delay RetryConfig.default 1 0 = 500 ∧
    calculate_delay RetryConfig.default 1 0 <
      calculate_delay { RetryConfig.default with add_jitter := false } 1 0 := by
  have e1 : calculate_delay { RetryConfig.default with add_jitter := false } 1 0 = 1000 := by
    norm_num [calculate_delay, calculate_delay_base, RetryConfig.default]
  have e2 : (⌊spec_delay_formula 500 10000 2 1⌋₊ : Nat) = 500 := by
    norm_num [spec_delay_formula]
  have e3 : calculate_delay RetryConfig.default 1 0 = 500 := by
    norm_num [calculate_delay, calculate_delay_base, RetryConfig.default]
  refine ⟨e1, e2, ?_, e3, ?_⟩
  · rw [e1, e2]
    norm_num
  · rw [e1, e3]
    norm_num

/-- Witness for C3 at the default configuration, attempt 1. -/
theorem c3_witness :
    calculate_delay { RetryConfig.default with add_jitter := false } 1 0 =
      ⌊spec_delay_formula 500 10000 2 2⌋₊ ∧
    middleware_calculate_delay { RetryConfig.default with add_jitter := false } 1 0 =
      ⌊spec_delay_formula 500 10000 2 1⌋₊ ∧
    calculate_delay RetryConfig.default 1 0 <
      min (calculate_delay_base RetryConfig.default 1) 10000 ∧
    middleware_calculate_delay
        { RetryConfig.default with add_jitter := false } 1 (1 / 4) ≤
      middleware_calculate_delay RetryConfig.default 1 (1 / 4) :=
  ⟨(c3_theorem { RetryConfig.default with add_jitter := false } 1 0 le_rfl
      (by norm_num [RetryConfig.default]) le_rfl).1 rfl,
   (c3_theorem { RetryConfig.default with add_jitter := false } 1 0 le_rfl
      (by norm_num [RetryConfig.default]) le_rfl).2.1 rfl,
   (c3_theorem RetryConfig.default 1 0 le_rfl
      (by norm_num [RetryConfig.default]) le_rfl).2.2.1 rfl (by norm_num)
      (by norm_num [calculate_delay_base, RetryConfig.default]),
   (c3_theorem RetryConfig.default 1 (1 / 4) le_rfl
      (by norm_num [RetryConfig.default]) (by norm_num)).2.2.2 rfl⟩

lemma parse_error_msg_ne (e : String) :
    ¬("Failed to parse JSON: " ++ e = "No data found in chunk") := by
  intro h
  have hd := congrArg String.data h
  rw [String.data_append] at hd
  have h1 : "Failed to parse JSON: ".data = 'F' :: "ailed to parse JSON: ".data := by decide
  have h2 : "No data found in chunk".data = 'N' :: "o data found in chunk".data := by decide
  rw [h1, h2] at hd
  simp only [List.cons_append] at hd
  injection hd with hc _
  exact absurd hc (by decide)

/-- The decoding loop of one read, seen at the payload level. -/
lemma process_lines_eq_scan {T : Type} (parse : String → Except String T) :
    ∀ (lines : List String) (acc : Option T),
      process_lines parse lines acc =
        payload_scan parse (lines.filterMap payload_of) acc := by
  intro lines
  induction lines with
  | nil => intro acc; rfl
  | cons line rest ih =>
    intro acc
    by_cases hd : str_startsWith line "data: "
    · by_cases hdone : trim_start_matches line "data: " = "[DONE]"
      · simp [process_lines, payload_of, hd, hdone, List.filterMap_cons, ih]
      · cases hp : parse (trim_start_matches line "data: ") with
        | ok t =>
          simp [process_lines, payload_of, hd, hdone, hp, List.filterMap_cons, ih,
            payload_scan]
        | error e =>
          simp [process_lines, payload_of, hd, hdone, hp, List.filterMap_cons, payload_scan]
    · simp [process_lines, payload_of, hd, List.filterMap_cons, ih]

/-- One read's outcome is a function of its data payloads. -/
lemma process_chunk_by_payloads {T : Type} (parse : String → Except String T) (c : String) :
    process_chunk parse c =
      match payload_scan parse (data_payloads c) none with
      | .error e => .error e
      | .ok (some t) => .ok t
      | .ok none => .error (.parseError "No data found in chunk") := by
  unfold process_chunk data_payloads
  rw [process_lines_eq_scan]

lemma process_stream_append {T : Type} (parse : String → Except String T)
    (xs ys : List (Except String String)) :
    process_stream parse (xs ++ ys) =
      process_stream parse xs ++ process_stream parse ys := by
  simp [process_stream, List.filterMap_append]

lemma process_stream_cons {T : Type} (parse : String → Except String T)
    (r : Except String String) (reads : List (Except String String)) :
    process_stream parse (r :: reads) =
      process_stream parse [r] ++ process_stream parse reads := by
  have h := process_stream_append parse [r] reads
  simpa using h

/-- A read with no data payload contributes nothing to the stream (its
"No data found in chunk" error is filtered out). -/
lemma read_no_payload {T : Type} (parse : String → Except String T) (c : String)
    (h : data_payloads c = []) :
    process_stream parse [.ok c] = [] := by
  simp [process_stream, process_chunk_by_payloads, h, payload_scan]

/-- A read with exactly one data payload contributes exactly its parse
outcome. -/
lemma read_single_payload {T : Type} (parse : String → Except String T) (c d : String)
    (h : data_payloads c = [d]) :
    process_stream parse [.ok c] = [parse_item parse d] := by
  cases hp : parse d with
  | ok t =>
    simp [process_stream, process_chunk_by_payloads, h, payload_scan, hp, parse_item]
  | error e =>
    simp [process_stream, process_chunk_by_payloads, h, payload_scan, hp, parse_item,
      parse_error_msg_ne e]

/-- When every payload parses, the per-read scan keeps the last one. -/
lemma payload_scan_last {T : Type} (parse : String → Except String T) :
    ∀ (ds : List String) (acc : Option T) (d : String) (t : T),
      (∀ x ∈ ds, (parse x).isOk = true) →
      ds.getLast? = some d → parse d = .ok t →
      payload_scan parse ds acc = .ok (some t) := by
  intro ds
  induction ds with
  | nil =>
    intro acc d t _ hlast
    simp at hlast
  | cons d1 rest ih =>
    intro acc d t hok hlast hp
    have h1 : (parse d1).isOk = true := hok d1 (List.mem_cons_self d1 rest)
    cases hp1 : parse d1 with
    | error e =>
      rw [hp1] at h1
      simp [Except.isOk, Except.toBool] at h1
    | ok t1 =>
      simp only [payload_scan, hp1]
      cases rest with
      | nil =>
        simp at hlast
        subst hlast
        rw [hp] at hp1
        injection hp1 with ht
        rw [ht]
        rfl
      | cons d2 rest2 =>
        rw [List.getLast?_cons_cons] at hlast
        exact ih (some t1) d t (fun x hx => hok x (List.mem_cons_of_mem _ hx)) hlast hp

/-- A read whose payloads all parse yields exactly its last payload's
chunk. -/
lemma process_stream_last_payload {T : Type} (parse : String → Except String T)
    (c d : String) (t : T)
    (hok : ∀ x ∈ data_payloads c, (parse x).isOk = true)
    (hlast : (data_payloads c).getLast? = some d) (hp : parse d = .ok t) :
    process_stream parse [.ok c] = [.ok t] := by
  simp [process_stream, process_chunk_by_payloads,
    payload_scan_last parse (data_payloads c) none d t hok hlast hp]

/-- Claim C4, counterexample: a data line arriving after the `[DONE]`
sentinel is still decoded and surfaced — the sentinel is skipped, it does
not terminate the sequence, refuting "marks end-of-stream" as a property
of every input byte stream. -/
theorem c4_counterexample :
    process_stream nat_parse [.ok "data: [DONE]\n\ndata: 7\n\n"] = [.ok 7] ∧
    ([(Except.ok 7 : Except VeniceError Nat)] : List (Except VeniceError Nat)) ≠ [] := by
  constructor <;> decide

/-- Claim C4, amended: a `data: [DONE]` line is skipped and never
surfaced as an item — a read consisting solely of the sentinel message
contributes nothing wherever it occurs, though it does not itself
terminate the sequence (the sequence ends when the underlying byte
stream ends); the input `"data: {...}\n\ndata: [DONE]\n\n"` yields
exactly one decoded chunk and then the sequence ends without error. -/
theorem c4_theorem {T : Type} (parse : String → Except String T) (t : T) :
    (∀ pre post, process_stream parse (pre ++ [.ok "data: [DONE]\n\n"] ++ post) =
      process_stream parse pre ++ process_stream parse post) ∧
    (parse "\x7b...\x7d" = .ok t →
      process_stream parse [.ok "data: \x7b...\x7d\n\ndata: [DONE]\n\n"] = [.ok t]) := by
  constructor
  · intro pre post
    rw [process_stream_append, process_stream_append,
      read_no_payload parse "data: [DONE]\n\n" (by decide)]
    simp
  · intro hp
    rw [read_single_payload parse _ "\x7b...\x7d" (by decide)]
    simp [parse_item, hp]

/-- Witness for C4: concrete parse oracle and reads. -/
theorem c4_witness :
    process_stream (fun _ => (Except.ok 5 : Except String Nat))
        [.ok "data: \x7b...\x7d\n\ndata: [DONE]\n\n"] = [.ok 5] ∧
    process_stream (fun _ => (Except.ok 5 : Except String Nat))
        ([.ok "data: 9\n\n"] ++ [.ok "data: [DONE]\n\n"] ++ []) =
      process_stream (fun _ => (Except.ok 5 : Except String Nat)) [.ok "data: 9\n\n"] ++
        process_stream (fun _ => (Except.ok 5 : Except String Nat)) [] :=
  ⟨(c4_theorem (fun _ => (Except.ok 5 : Except String Nat)) 5).2 rfl,
   (c4_theorem (fun _ => (Except.ok 5 : Except String Nat)) 5).1 [.ok "data: 9\n\n"] []⟩

/-- Claim C5, counterexample: two `data: ` lines arriving in a single
byte read produce only one item — the last line's — so the first chunk
is dropped, refuting "each such line is JSON-parsed into exactly one
item ... no chunk dropped". -/
theorem c5_counterexample :
    process_stream nat_parse [.ok "data: 1\ndata: 2\n\n"] = [.ok 2] ∧
    ([(Except.ok 2 : Except VeniceError Nat)] : List (Except VeniceError Nat)) ≠
      [Except.ok 1, Except.ok 2] := by
  constructor <;> decide

/-- Claim C5, amended: each byte read contributes at most one item.
When every read carries at most one data line, the items are exactly the
in-order parses of those lines — one per line, none duplicated or
dropped, a parse failure surfacing as that read's error item.  Within a
single read holding several data lines that all parse, only the last
line's chunk is emitted; the earlier lines of that read are dropped. -/
theorem c5_theorem {T : Type} (parse : String → Except String T) :
    (∀ reads : List String, (∀ c ∈ reads, (data_payloads c).length ≤ 1) →
      process_stream parse (reads.map .ok) =
        ((reads.map data_payloads).flatten).map (parse_item parse)) ∧
    (∀ c d t, (∀ x ∈ data_payloads c, (parse x).isOk = true) →
      (data_payloads c).getLast? = some d → parse d = .ok t →
      process_stream parse [.ok c] = [.ok t]) := by
  constructor
  · intro reads
    induction reads with
    | nil => intro _; rfl
    | cons c rest ih =>
      intro h
      have hc := h c (List.mem_cons_self c rest)
      rw [List.map_cons, process_stream_cons, ih (fun x hx => h x (List.mem_cons_of_mem _ hx))]
      cases hpl : data_payloads c with
      | nil =>
        rw [read_no_payload parse c hpl]
        simp [hpl]
      | cons d ds =>
        have hds : ds = [] := by
          rw [hpl] at hc
          cases ds with
          | nil => rfl
          | cons x xs => simp at hc
        subst hds
        rw [read_single_payload parse c d hpl]
        simp [hpl]
  · intro c d t hok hlast hp
    exact process_stream_last_payload parse c d t hok hlast hp

/-- Witness for C5: two single-line reads decode in order; a two-line
read keeps only the last chunk. -/
theorem c5_witness :
    process_stream nat_parse (["data: 1\n\n", "data: 2\n\n"].map .ok) =
      (([["1"], ["2"]] : List (List String)).flatten).map (parse_item nat_parse) ∧
    process_stream nat_parse [.ok "data: 1\ndata: 2\n\n"] = [.ok 2] :=
  ⟨by
    have h := (c5_theorem nat_parse).1 ["data: 1\n\n", "data: 2\n\n"] (by
      intro x hx
      simp at hx
      rcases hx with h | h <;> subst h <;> decide)
    have hmap : ["data: 1\n\n", "data: 2\n\n"].map data_payloads =
        ([["1"], ["2"]] : List (List String)) := by decide
    rw [hmap] at h
    exact h,
   (c5_theorem nat_parse).2 "data: 1\ndata: 2\n\n" "2" 2
     (by
       intro x hx
       simp [show data_payloads "data: 1\ndata: 2\n\n" = ["1", "2"] from by decide] at hx
       rcases hx with h | h <;> subst h <;> decide)
     (by decide) (by decide)⟩

end Venice
